import Mathlib

/-!
A verification model of the pyxflow mesh core: the mesh container
(node table, element groups, boundary face groups) and the GRI text
codec exposed by `src/pyxflow/px_Mesh.h` (px_CreateMesh, px_ReadGriFile,
px_WriteGriFile, px_GetNodes, px_nBFaceGroup, px_BFaceGroup,
px_nElemGroup, px_ElemGroup).

The repository ships only the header with doc comments; the function
bodies live in the un-shipped xflow library.  All operational
definitions below are therefore modelled from the specification
(`spec.md`), staying as close as possible to its stated file structure,
read/write algorithms, data-model invariants and error kinds.  The GRI
text format is embedded at the token level: a file is a list of lines,
a line a list of tokens (natural number, real number, or word), which
models the whitespace/line-delimited plain-text format while
abstracting character-level lexing.  Real values are modelled as
rationals, so the "within floating tolerance" clauses of the spec
become exact equalities.
-/

/-- A lexical token of a GRI file line: a natural number, a real
number (modelled as a rational), or a word (basis label or title). -/
inductive Tok where
  | nat (n : Nat)
  | real (r : Rat)
  | str (s : String)
deriving DecidableEq, Repr

/-- A line of a GRI file: its whitespace-separated tokens. -/
abbrev GriLine := List Tok

/-- A GRI file: its lines. -/
abbrev GriFile := List GriLine

/-- Modelled from the spec: the error kinds of section 7. -/
inductive MeshError where
  | InvalidHandle
  | IndexOutOfRange
  | FileNotFound
  | MalformedFile
  | UnknownBasis
  | UnresolvedBoundaryFace
deriving DecidableEq, Repr

/-- Read a token as a real number (a natural-number literal is also a
valid real literal). -/
def Tok.asReal : Tok → Option Rat
  | .nat n => some ((n : Rat))
  | .real r => some r
  | .str _ => none

/-- Read a token as a natural number (an index or count). -/
def Tok.asNat : Tok → Option Nat
  | .nat n => some n
  | _ => none

/-- Modelled from the spec: one boundary face record
`(elementGroupIndex, localElementIndex, localFaceIndex)`; field names
follow the xflow `xf_BFace` convention. -/
structure xf_BFace where
  egrp : Nat
  elem : Nat
  face : Nat
deriving DecidableEq, Repr

/-- Modelled from the spec: a Boundary Face Group — a title and its
ordered faces (`faceCount` is the length of `BFace`). -/
structure xf_BFaceGroup where
  Title : String
  BFace : List xf_BFace
deriving DecidableEq, Repr

/-- Modelled from the spec: an Element Group.  `nElem` elements,
`nNode` node references per element, polynomial order `QOrder`, basis
label `QBasis`, and the element-major connectivity `Node` (one row of
`nNode` node indices per element), matching the header's
`(nElem, nNode, QOrder, QBasis, Node)` outputs of `px_ElemGroup`. -/
structure xf_ElemGroup where
  nElem : Nat
  nNode : Nat
  QOrder : Nat
  QBasis : String
  Node : List (List Nat)
deriving DecidableEq, Repr

/-- Modelled from the spec: the Mesh Container — one node table
(`Dim`, `nNode`, `Coord`), the element groups and the boundary face
groups. -/
structure xf_Mesh where
  Dim : Nat
  nNode : Nat
  Coord : List (List Rat)
  ElemGroup : List xf_ElemGroup
  BFaceGroup : List xf_BFaceGroup
deriving DecidableEq, Repr

/-- The default element group used for out-of-range `getD` access. -/
def emptyEG : xf_ElemGroup := ⟨0, 0, 0, "", []⟩

/-- Modelled from the spec: `CreateMesh()` returns a new, empty Mesh
Container with `dimension` unset (0), zero nodes, zero groups; no
failure modes. -/
def px_CreateMesh : xf_Mesh := ⟨0, 0, [], [], []⟩

/-- Modelled from the spec: the Lagrange-simplex node layout backing
the Basis/Order Catalog.  `multiIndices d p` enumerates the barycentric
multi-indices (length `d+1`, sum `p`) of the nodes of a `d`-simplex of
order `p`, in lexicographic order; the node count and the local-face
node subsets are read off this enumeration. -/
def multiIndices : Nat → Nat → List (List Nat)
  | 0, p => [[p]]
  | d+1, p => (List.range (p+1)).flatMap (fun a => (multiIndices d (p - a)).map (fun t => a :: t))

/-- Nodes per element of a `d`-simplex of order `p`. -/
def nodesPerElem (d p : Nat) : Nat := (multiIndices d p).length

/-- Modelled from the spec: the Basis/Order Catalog — a static map from
`(dimension, basis label, order)` to the per-element node count,
defined for the Lagrange simplex family in dimensions 2 and 3 with
order at least 1; any other combination is unknown. -/
def catalogLookup (dim : Nat) (basis : String) (order : Nat) : Option Nat :=
  if basis = "Lagrange" ∧ (dim = 2 ∨ dim = 3) ∧ 1 ≤ order then some (nodesPerElem dim order)
  else none

/-- Modelled from the spec: the local-face-to-local-node mapping of the
basis convention.  Local face `f` of a `d`-simplex is the set of nodes
whose barycentric component `f` is zero; the result lists their local
node positions. -/
def localFaceNodes (d p f : Nat) : List Nat :=
  ((multiIndices d p).enum.filter (fun x => x.2.getD f 1 = 0)).map (fun x => x.1)

/-- Read a token list as real numbers; `none` when a token is not
numeric. -/
def tokReals : List Tok → Option (List Rat)
  | [] => some []
  | t :: ts =>
    match t.asReal, tokReals ts with
    | some r, some rs => some (r :: rs)
    | _, _ => none

/-- Read a token list as natural numbers; `none` when a token is not a
natural-number literal. -/
def tokNats : List Tok → Option (List Nat)
  | [] => some []
  | t :: ts =>
    match t.asNat, tokNats ts with
    | some n, some ns => some (n :: ns)
    | _, _ => none

/-- Modelled from the spec: parse one node-coordinate line — fails with
`MalformedFile` if the line has fewer than `dim` numeric tokens. -/
def parseCoordLine (dim : Nat) (l : GriLine) : Except MeshError (List Rat) :=
  if l.length < dim then .error .MalformedFile
  else
    match tokReals (l.take dim) with
    | some cs => .ok cs
    | none => .error .MalformedFile

/-- Modelled from the spec: parse exactly `n` coordinate lines — fails
with `MalformedFile` if `n` lines are not available. -/
def parseCoords (dim : Nat) : Nat → GriFile → Except MeshError (List (List Rat) × GriFile)
  | 0, rest => .ok ([], rest)
  | _+1, [] => .error .MalformedFile
  | n+1, l :: rest => do
    let c ← parseCoordLine dim l
    let (cs, rest2) ← parseCoords dim n rest
    .ok (c :: cs, rest2)

/-- Modelled from the spec: parse a section-count line (one natural
number). -/
def parseCount : GriFile → Except MeshError (Nat × GriFile)
  | [Tok.nat n] :: rest => .ok (n, rest)
  | _ => .error .MalformedFile

/-- Modelled from the spec: parse an on-disk boundary-face line — the
node indices describing the face; a node index at or beyond the node
count fails with `IndexOutOfRange`, a non-numeric token with
`MalformedFile`. -/
def parseFaceLine (nN : Nat) (l : GriLine) : Except MeshError (List Nat) :=
  match tokNats l with
  | some ns => if ns.all (fun n => n < nN) then .ok ns else .error .IndexOutOfRange
  | none => .error .MalformedFile

/-- Parse exactly `k` boundary-face lines. -/
def parseFaceLines (nN : Nat) : Nat → GriFile → Except MeshError (List (List Nat) × GriFile)
  | 0, rest => .ok ([], rest)
  | _+1, [] => .error .MalformedFile
  | k+1, l :: rest => do
    let ns ← parseFaceLine nN l
    let (nss, rest2) ← parseFaceLines nN k rest
    .ok (ns :: nss, rest2)

/-- A boundary group in on-disk form: title and face node-lists. -/
abbrev RawBG := String × List (List Nat)

/-- Modelled from the spec: parse one boundary group — a
`(faceCount, nodesPerFace, title)` line followed by `faceCount` face
lines. -/
def parseBGroup (nN : Nat) : GriFile → Except MeshError (RawBG × GriFile)
  | [Tok.nat nf, Tok.nat _, Tok.str t] :: rest => do
    let (nss, rest2) ← parseFaceLines nN nf rest
    .ok ((t, nss), rest2)
  | _ => .error .MalformedFile

/-- Parse exactly `k` boundary groups. -/
def parseBGroups (nN : Nat) : Nat → GriFile → Except MeshError (List RawBG × GriFile)
  | 0, rest => .ok ([], rest)
  | k+1, f => do
    let (bg, rest) ← parseBGroup nN f
    let (bgs, rest2) ← parseBGroups nN k rest
    .ok (bg :: bgs, rest2)

/-- Modelled from the spec: parse one element-connectivity line,
consuming `nPE` node-index tokens; fewer tokens is `MalformedFile`, an
out-of-range node index is `IndexOutOfRange`. -/
def parseElemLine (nN nPE : Nat) (l : GriLine) : Except MeshError (List Nat) :=
  if l.length < nPE then .error .MalformedFile
  else
    match tokNats (l.take nPE) with
    | some ns => if ns.all (fun n => n < nN) then .ok ns else .error .IndexOutOfRange
    | none => .error .MalformedFile

/-- Parse exactly `k` element-connectivity lines. -/
def parseElemLines (nN nPE : Nat) : Nat → GriFile → Except MeshError (List (List Nat) × GriFile)
  | 0, rest => .ok ([], rest)
  | _+1, [] => .error .MalformedFile
  | k+1, l :: rest => do
    let ns ← parseElemLine nN nPE l
    let (nss, rest2) ← parseElemLines nN nPE k rest
    .ok (ns :: nss, rest2)

/-- Modelled from the spec: parse one element group — an
`(elementCount, order, basisLabel)` line followed by `elementCount`
connectivity lines; an unrecognized basis/order combination fails with
`UnknownBasis`. -/
def parseEGroup (nN dim : Nat) : GriFile → Except MeshError (xf_ElemGroup × GriFile)
  | [Tok.nat nE, Tok.nat order, Tok.str basis] :: rest =>
    match catalogLookup dim basis order with
    | none => .error .UnknownBasis
    | some nPE => do
      let (rows, rest2) ← parseElemLines nN nPE nE rest
      .ok (⟨nE, nPE, order, basis, rows⟩, rest2)
  | _ => .error .MalformedFile

/-- Parse exactly `k` element groups. -/
def parseEGroups (nN dim : Nat) : Nat → GriFile → Except MeshError (List xf_ElemGroup × GriFile)
  | 0, rest => .ok ([], rest)
  | k+1, f => do
    let (eg, rest) ← parseEGroup nN dim f
    let (egs, rest2) ← parseEGroups nN dim k rest
    .ok (eg :: egs, rest2)

/-- The global node indices of local face `face` of element `elem` of
group `egrp`, per the basis convention. -/
def faceNodeList (dim : Nat) (egs : List xf_ElemGroup) (b : xf_BFace) : List Nat :=
  let eg := egs.getD b.egrp emptyEG
  (localFaceNodes dim eg.QOrder b.face).map (fun j => (eg.Node.getD b.elem []).getD j 0)

/-- Modelled from the spec: the reverse lookup built from all parsed
elements — every `(group, local element, local face)` triple together
with its canonicalized node-index set. -/
def allFaces (dim : Nat) (egs : List xf_ElemGroup) : List (xf_BFace × Finset Nat) :=
  (List.range egs.length).flatMap (fun g =>
    (List.range (egs.getD g emptyEG).nElem).flatMap (fun e =>
      (List.range (dim + 1)).map (fun f =>
        (⟨g, e, f⟩, (faceNodeList dim egs ⟨g, e, f⟩).toFinset))))

/-- Modelled from the spec: resolve an on-disk face node list to an
element face by unordered node-set equality; fails with
`UnresolvedBoundaryFace` when no element face matches. -/
def resolveFace (dim : Nat) (egs : List xf_ElemGroup) (ns : List Nat) : Except MeshError xf_BFace :=
  match (allFaces dim egs).find? (fun p => decide (p.2 = ns.toFinset)) with
  | some p => .ok p.1
  | none => .error .UnresolvedBoundaryFace

/-- Resolve every face node list of one boundary group, in order. -/
def resolveFaces (dim : Nat) (egs : List xf_ElemGroup) :
    List (List Nat) → Except MeshError (List xf_BFace)
  | [] => .ok []
  | ns :: nss => do
    let b ← resolveFace dim egs ns
    let bs ← resolveFaces dim egs nss
    .ok (b :: bs)

/-- Resolve every boundary group against the parsed elements. -/
def resolveBGroups (dim : Nat) (egs : List xf_ElemGroup) :
    List RawBG → Except MeshError (List xf_BFaceGroup)
  | [] => .ok []
  | bg :: bgs => do
    let bs ← resolveFaces dim egs bg.2
    let rest ← resolveBGroups dim egs bgs
    .ok (⟨bg.1, bs⟩ :: rest)

/-- Modelled from the spec: parse the header line
`nodeCount dimension`; the dimension invariant (2 or 3) is checked
here. -/
def parseHeader : GriFile → Except MeshError (Nat × Nat × GriFile)
  | [Tok.nat nN, Tok.nat dim] :: rest =>
    if dim = 2 ∨ dim = 3 then .ok (nN, dim, rest) else .error .MalformedFile
  | _ => .error .MalformedFile

/-- Modelled from the spec: the GRI read path of `px_ReadGriFile` —
header, node table, boundary section (on-disk face-to-node form),
element section, then deferred resolution of boundary faces against
the parsed element connectivity; it either returns a fully constructed
mesh or fails with the first error encountered. -/
def px_ReadGriFile (f : GriFile) : Except MeshError xf_Mesh := do
  let (nN, dim, r1) ← parseHeader f
  let (coords, r2) ← parseCoords dim nN r1
  let (nBG, r3) ← parseCount r2
  let (raws, r4) ← parseBGroups nN nBG r3
  let (nEG, r5) ← parseCount r4
  let (egs, _) ← parseEGroups nN dim nEG r5
  let bgs ← resolveBGroups dim egs raws
  .ok ⟨dim, nN, coords, egs, bgs⟩

/-- The on-disk node list of one boundary face, reconstructed from its
`(egrp, elem, face)` triple by the basis convention. -/
def writeBFaceLine (dim : Nat) (egs : List xf_ElemGroup) (b : xf_BFace) : GriLine :=
  (faceNodeList dim egs b).map Tok.nat

/-- Modelled from the spec: emit one boundary group — its
`(faceCount, nodesPerFace, title)` line then its face node-lists. -/
def writeBGroup (dim : Nat) (egs : List xf_ElemGroup) (bg : xf_BFaceGroup) : GriFile :=
  [Tok.nat bg.BFace.length,
   Tok.nat ((bg.BFace.map (fun b => (faceNodeList dim egs b).length)).getD 0 0),
   Tok.str bg.Title]
  :: bg.BFace.map (writeBFaceLine dim egs)

/-- Modelled from the spec: emit one element group — its
`(elementCount, order, basisLabel)` line then its connectivity. -/
def writeEGroup (eg : xf_ElemGroup) : GriFile :=
  [Tok.nat eg.nElem, Tok.nat eg.QOrder, Tok.str eg.QBasis]
  :: eg.Node.map (fun row => row.map Tok.nat)

/-- Modelled from the spec: the GRI write path of `px_WriteGriFile` —
header, coordinates in node-index order, boundary groups (face node
lists reconstructed from the in-memory triples), element groups. -/
def px_WriteGriFile (M : xf_Mesh) : GriFile :=
  ([Tok.nat M.nNode, Tok.nat M.Dim]
    :: M.Coord.map (fun c => c.map Tok.real))
  ++ ([Tok.nat M.BFaceGroup.length] :: (M.BFaceGroup.map (writeBGroup M.Dim M.ElemGroup)).flatten)
  ++ ([Tok.nat M.ElemGroup.length] :: (M.ElemGroup.map writeEGroup).flatten)

/-- Modelled from the spec: `GetNodes` returns
`(dimension, nodeCount, coordinates)`. -/
def px_GetNodes (M : xf_Mesh) : Nat × Nat × List (List Rat) := (M.Dim, M.nNode, M.Coord)

/-- Modelled from the spec: number of boundary face groups. -/
def px_nBFaceGroup (M : xf_Mesh) : Nat := M.BFaceGroup.length

/-- Modelled from the spec: number of element groups. -/
def px_nElemGroup (M : xf_Mesh) : Nat := M.ElemGroup.length

/-- One boundary face as its `(egrp, elem, face)` triple. -/
def bfaceTriple (b : xf_BFace) : List Nat := [b.egrp, b.elem, b.face]

/-- Modelled from the spec: `BoundaryGroup(mesh, index)` returns
`(title, faceCount, faceTriples)` with the triples flattened to a
`faceCount * 3` array, or fails with `IndexOutOfRange`. -/
def px_BFaceGroup (M : xf_Mesh) (i : Nat) : Except MeshError (String × Nat × List Nat) :=
  match M.BFaceGroup[i]? with
  | some g => .ok (g.Title, g.BFace.length, (g.BFace.map bfaceTriple).flatten)
  | none => .error .IndexOutOfRange

/-- Modelled from the spec: `ElementGroup(mesh, index)` returns
`(elementCount, nodesPerElement, order, basisLabel, nodeIndices)` with
the connectivity flattened, or fails with `IndexOutOfRange`. -/
def px_ElemGroup (M : xf_Mesh) (i : Nat) :
    Except MeshError (Nat × Nat × Nat × String × List Nat) :=
  match M.ElemGroup[i]? with
  | some g => .ok (g.nElem, g.nNode, g.QOrder, g.QBasis, g.Node.flatten)
  | none => .error .IndexOutOfRange

/-- Modelled from the spec: validity of one element group against the
owning mesh — catalog-consistent node count and in-range node
indices. -/
def ValidEG (nodeTot dim : Nat) (eg : xf_ElemGroup) : Prop :=
  catalogLookup dim eg.QBasis eg.QOrder = some eg.nNode ∧
  eg.Node.length = eg.nElem ∧
  ∀ row ∈ eg.Node, row.length = eg.nNode ∧ ∀ n ∈ row, n < nodeTot

/-- Modelled from the spec: validity of one boundary face record — its
element group, local element and local face indices all in range. -/
def ValidBFace (dim : Nat) (egs : List xf_ElemGroup) (b : xf_BFace) : Prop :=
  b.egrp < egs.length ∧ b.elem < (egs.getD b.egrp emptyEG).nElem ∧ b.face < dim + 1

/-- Modelled from the spec: the Mesh Container invariants — dimension 2
or 3, a coordinate row of width `Dim` per node, and all
cross-references within bounds of the sibling structures. -/
def ValidMesh (M : xf_Mesh) : Prop :=
  (M.Dim = 2 ∨ M.Dim = 3) ∧
  M.Coord.length = M.nNode ∧
  (∀ c ∈ M.Coord, c.length = M.Dim) ∧
  (∀ eg ∈ M.ElemGroup, ValidEG M.nNode M.Dim eg) ∧
  (∀ bg ∈ M.BFaceGroup, ∀ b ∈ bg.BFace, ValidBFace M.Dim M.ElemGroup b)

instance : DecidablePred ValidMesh := fun M => by
  unfold ValidMesh ValidEG ValidBFace
  infer_instance

/-- The identity sets of one boundary group's faces: the node-index
set of each face, in face order. -/
def bfaceSets (dim : Nat) (egs : List xf_ElemGroup) (bg : xf_BFaceGroup) : List (Finset Nat) :=
  bg.BFace.map (fun b => (faceNodeList dim egs b).toFinset)

/-- Mesh equivalence as the round-trip contract states it: same
dimension, node count and coordinates, same element connectivity, same
boundary group titles and boundary face identity sets. -/
def MeshEquiv (M M2 : xf_Mesh) : Prop :=
  M.Dim = M2.Dim ∧ M.nNode = M2.nNode ∧ M.Coord = M2.Coord ∧
  M.ElemGroup = M2.ElemGroup ∧
  M.BFaceGroup.map xf_BFaceGroup.Title = M2.BFaceGroup.map xf_BFaceGroup.Title ∧
  M.BFaceGroup.map (bfaceSets M.Dim M.ElemGroup)
    = M2.BFaceGroup.map (bfaceSets M2.Dim M2.ElemGroup)

/-! ### Token-level lemmas -/

theorem tokReals_map_real (cs : List Rat) : tokReals (cs.map Tok.real) = some cs := by
  induction cs with
  | nil => rfl
  | cons c cs ih => simp [tokReals, Tok.asReal, ih]

theorem tokNats_map_nat (ns : List Nat) : tokNats (ns.map Tok.nat) = some ns := by
  induction ns with
  | nil => rfl
  | cons n ns ih => simp [tokNats, Tok.asNat, ih]

theorem tokReals_length {ts : List Tok} {rs : List Rat} (h : tokReals ts = some rs) :
    rs.length = ts.length := by
  induction ts generalizing rs with
  | nil => simp [tokReals] at h; simp [← h]
  | cons t ts ih =>
    unfold tokReals at h
    cases ha : t.asReal with
    | none => simp [ha] at h
    | some r =>
      cases hb : tokReals ts with
      | none => simp [ha, hb] at h
      | some rs2 =>
        simp [ha, hb] at h
        subst h
        simp [ih hb]

theorem tokNats_length {ts : List Tok} {ns : List Nat} (h : tokNats ts = some ns) :
    ns.length = ts.length := by
  induction ts generalizing ns with
  | nil => simp [tokNats] at h; simp [← h]
  | cons t ts ih =>
    unfold tokNats at h
    cases ha : t.asNat with
    | none => simp [ha] at h
    | some n =>
      cases hb : tokNats ts with
      | none => simp [ha, hb] at h
      | some ns2 =>
        simp [ha, hb] at h
        subst h
        simp [ih hb]

/-! ### Except-monad inversion -/

theorem exceptBind_ok {ε α β : Type} {x : Except ε α} {g : α → Except ε β} {b : β} :
    (x >>= g) = Except.ok b ↔ ∃ a, x = Except.ok a ∧ g a = Except.ok b := by
  cases x with
  | error e => simp [Bind.bind, Except.bind]
  | ok a => simp [Bind.bind, Except.bind]

theorem exceptBind_error {ε α β : Type} {x : Except ε α} {g : α → Except ε β} {e : ε} :
    (x >>= g) = Except.error e ↔
      x = Except.error e ∨ ∃ a, x = Except.ok a ∧ g a = Except.error e := by
  cases x with
  | error e2 => simp [Bind.bind, Except.bind]
  | ok a => simp [Bind.bind, Except.bind]

/-! ### Coordinate-section lemmas -/

theorem parseCoordLine_write {dim : Nat} (c : List Rat) (h : c.length = dim) :
    parseCoordLine dim (c.map Tok.real) = .ok c := by
  unfold parseCoordLine
  have hl : (c.map Tok.real).length = dim := by simp [h]
  rw [if_neg (by omega)]
  rw [List.take_of_length_le (by omega), tokReals_map_real]

theorem parseCoordLine_short {dim : Nat} (l : GriLine) (h : l.length < dim) :
    parseCoordLine dim l = .error .MalformedFile := by
  unfold parseCoordLine
  rw [if_pos h]

theorem parseCoordLine_ok_length {dim : Nat} {l : GriLine} {c : List Rat}
    (h : parseCoordLine dim l = .ok c) : c.length = dim := by
  unfold parseCoordLine at h
  by_cases hl : l.length < dim
  · rw [if_pos hl] at h; exact absurd h (by simp)
  · rw [if_neg hl] at h
    cases ht : tokReals (l.take dim) with
    | none => rw [ht] at h; exact absurd h (by simp)
    | some cs =>
      rw [ht] at h
      cases h
      have := tokReals_length ht
      simp [List.length_take] at this
      omega

theorem parseCoordLine_error {dim : Nat} {l : GriLine} {e : MeshError}
    (h : parseCoordLine dim l = .error e) : e = .MalformedFile := by
  unfold parseCoordLine at h
  by_cases hl : l.length < dim
  · rw [if_pos hl] at h; cases h; rfl
  · rw [if_neg hl] at h
    cases ht : tokReals (l.take dim) with
    | none => rw [ht] at h; cases h; rfl
    | some cs => rw [ht] at h; exact absurd h (by simp)

theorem parseCoords_append {dim : Nat} (cs : List (List Rat)) (rest : GriFile)
    (h : ∀ c ∈ cs, c.length = dim) :
    parseCoords dim cs.length (cs.map (fun c => c.map Tok.real) ++ rest) = .ok (cs, rest) := by
  induction cs with
  | nil => rfl
  | cons c cs ih =>
    have hc : c.length = dim := h c (by simp)
    have hrec := ih (fun x hx => h x (by simp [hx]))
    simp only [List.length_cons, List.map_cons, List.cons_append]
    unfold parseCoords
    rw [parseCoordLine_write c hc]
    simp only [Bind.bind, Except.bind]
    rw [hrec]

theorem parseCoords_short {dim : Nat} : ∀ (n : Nat) (f : GriFile), f.length < n →
    parseCoords dim n f = .error .MalformedFile := by
  intro n
  induction n with
  | zero => intro f h; omega
  | succ n ih =>
    intro f h
    cases f with
    | nil => rfl
    | cons l rest =>
      unfold parseCoords
      cases hc : parseCoordLine dim l with
      | error e =>
        have := parseCoordLine_error hc
        subst this
        simp [Bind.bind, Except.bind, hc]
      | ok c =>
        simp only [Bind.bind, Except.bind, hc]
        rw [ih rest (by simpa using h)]

theorem parseCoords_ok {dim : Nat} : ∀ {n : Nat} {f : GriFile} {cs : List (List Rat)}
    {rest : GriFile}, parseCoords dim n f = .ok (cs, rest) →
    cs.length = n ∧ ∀ c ∈ cs, c.length = dim := by
  intro n
  induction n with
  | zero =>
    intro f cs rest h
    unfold parseCoords at h
    cases h
    simp
  | succ n ih =>
    intro f cs rest h
    cases f with
    | nil => exact absurd h (by simp [parseCoords])
    | cons l r =>
      unfold parseCoords at h
      rw [exceptBind_ok] at h
      obtain ⟨c, hc, h⟩ := h
      rw [exceptBind_ok] at h
      obtain ⟨⟨cs2, rest2⟩, hcs, h⟩ := h
      simp only [Except.ok.injEq, Prod.mk.injEq] at h
      obtain ⟨h1, h2⟩ := h
      subst h1
      obtain ⟨hlen, hall⟩ := ih hcs
      refine ⟨by simp [hlen], ?_⟩
      intro x hx
      rcases List.mem_cons.mp hx with h | h
      · subst h; exact parseCoordLine_ok_length hc
      · exact hall x h

theorem parseCoords_error {dim : Nat} : ∀ {n : Nat} {f : GriFile} {e : MeshError},
    parseCoords dim n f = .error e → e = .MalformedFile := by
  intro n
  induction n with
  | zero => intro f e h; exact absurd h (by simp [parseCoords])
  | succ n ih =>
    intro f e h
    cases f with
    | nil => unfold parseCoords at h; cases h; rfl
    | cons l r =>
      unfold parseCoords at h
      rw [exceptBind_error] at h
      rcases h with h | ⟨c, hc, h⟩
      · exact parseCoordLine_error h
      · rw [exceptBind_error] at h
        rcases h with h | ⟨⟨cs2, rest2⟩, hcs, h⟩
        · exact ih h
        · exact absurd h (by simp)

/-! ### Boundary-section lemmas -/

theorem parseFaceLine_write {nN : Nat} (ns : List Nat) (h : ∀ n ∈ ns, n < nN) :
    parseFaceLine nN (ns.map Tok.nat) = .ok ns := by
  unfold parseFaceLine
  rw [tokNats_map_nat]
  have hall : ns.all (fun n => decide (n < nN)) = true := by
    rw [List.all_eq_true]
    intro x hx
    simpa using h x hx
  simp [hall]

theorem parseFaceLines_append {nN : Nat} (nss : List (List Nat)) (rest : GriFile)
    (h : ∀ ns ∈ nss, ∀ n ∈ ns, n < nN) :
    parseFaceLines nN nss.length (nss.map (List.map Tok.nat) ++ rest) = .ok (nss, rest) := by
  induction nss with
  | nil => rfl
  | cons ns nss ih =>
    simp only [List.length_cons, List.map_cons, List.cons_append]
    unfold parseFaceLines
    rw [parseFaceLine_write ns (h ns (by simp))]
    simp only [Bind.bind, Except.bind]
    rw [ih (fun x hx => h x (by simp [hx]))]

theorem parseBGroup_write {nN dim : Nat} (egs : List xf_ElemGroup) (bg : xf_BFaceGroup)
    (rest : GriFile)
    (h : ∀ b ∈ bg.BFace, ∀ n ∈ faceNodeList dim egs b, n < nN) :
    parseBGroup nN (writeBGroup dim egs bg ++ rest)
      = .ok ((bg.Title, bg.BFace.map (faceNodeList dim egs)), rest) := by
  unfold writeBGroup parseBGroup
  simp only [List.cons_append]
  have hfl : parseFaceLines nN bg.BFace.length
      (List.map (writeBFaceLine dim egs) bg.BFace ++ rest)
      = .ok (bg.BFace.map (faceNodeList dim egs), rest) := by
    have hmap : List.map (writeBFaceLine dim egs) bg.BFace
        = (bg.BFace.map (faceNodeList dim egs)).map (List.map Tok.nat) := by
      simp [writeBFaceLine, List.map_map]
    rw [hmap]
    have hlen : bg.BFace.length = (bg.BFace.map (faceNodeList dim egs)).length := by simp
    rw [hlen]
    apply parseFaceLines_append
    intro ns hns n hn
    obtain ⟨b, hb, rfl⟩ := List.mem_map.mp hns
    exact h b hb n hn
  simp [Bind.bind, Except.bind, hfl]

theorem parseBGroups_append {nN dim : Nat} (egs : List xf_ElemGroup)
    (bgs : List xf_BFaceGroup) (rest : GriFile)
    (h : ∀ bg ∈ bgs, ∀ b ∈ bg.BFace, ∀ n ∈ faceNodeList dim egs b, n < nN) :
    parseBGroups nN bgs.length ((bgs.map (writeBGroup dim egs)).flatten ++ rest)
      = .ok (bgs.map (fun bg => (bg.Title, bg.BFace.map (faceNodeList dim egs))), rest) := by
  induction bgs with
  | nil => rfl
  | cons bg bgs ih =>
    simp only [List.length_cons, List.map_cons, List.flatten_cons, List.append_assoc]
    unfold parseBGroups
    rw [parseBGroup_write egs bg _ (h bg (by simp))]
    simp only [Bind.bind, Except.bind]
    rw [ih (fun x hx => h x (by simp [hx]))]

/-! ### Element-section lemmas -/

theorem parseElemLine_write {nN nPE : Nat} (row : List Nat) (h1 : row.length = nPE)
    (h2 : ∀ n ∈ row, n < nN) :
    parseElemLine nN nPE (row.map Tok.nat) = .ok row := by
  unfold parseElemLine
  rw [if_neg (by simp [h1])]
  rw [List.take_of_length_le (by simp [h1]), tokNats_map_nat]
  have hall : row.all (fun n => decide (n < nN)) = true := by
    rw [List.all_eq_true]
    intro x hx
    simpa using h2 x hx
  simp [hall]

theorem parseElemLine_ok {nN nPE : Nat} {l : GriLine} {ns : List Nat}
    (h : parseElemLine nN nPE l = .ok ns) : ns.length = nPE ∧ ∀ n ∈ ns, n < nN := by
  unfold parseElemLine at h
  by_cases hl : l.length < nPE
  · rw [if_pos hl] at h; exact absurd h (by simp)
  · rw [if_neg hl] at h
    cases ht : tokNats (l.take nPE) with
    | none => rw [ht] at h; exact absurd h (by simp)
    | some ms =>
      rw [ht] at h
      by_cases hall : ms.all (fun n => decide (n < nN)) = true
      · simp only [hall, if_true] at h
        cases h
        constructor
        · have := tokNats_length ht
          simp [List.length_take] at this
          omega
        · intro n hn
          have := List.all_eq_true.mp hall n hn
          simpa using this
      · simp only [hall, if_false] at h
        exact absurd h (by simp)

theorem parseElemLines_append {nN nPE : Nat} (rows : List (List Nat)) (rest : GriFile)
    (h : ∀ row ∈ rows, row.length = nPE ∧ ∀ n ∈ row, n < nN) :
    parseElemLines nN nPE rows.length (rows.map (List.map Tok.nat) ++ rest)
      = .ok (rows, rest) := by
  induction rows with
  | nil => rfl
  | cons row rows ih =>
    simp only [List.length_cons, List.map_cons, List.cons_append]
    unfold parseElemLines
    rw [parseElemLine_write row (h row (by simp)).1 (h row (by simp)).2]
    simp only [Bind.bind, Except.bind]
    rw [ih (fun x hx => h x (by simp [hx]))]

theorem parseElemLines_ok {nN nPE : Nat} : ∀ {k : Nat} {f : GriFile} {rows : List (List Nat)}
    {rest : GriFile}, parseElemLines nN nPE k f = .ok (rows, rest) →
    rows.length = k ∧ ∀ row ∈ rows, row.length = nPE ∧ ∀ n ∈ row, n < nN := by
  intro k
  induction k with
  | zero =>
    intro f rows rest h
    unfold parseElemLines at h
    cases h
    simp
  | succ k ih =>
    intro f rows rest h
    cases f with
    | nil => exact absurd h (by simp [parseElemLines])
    | cons l r =>
      unfold parseElemLines at h
      rw [exceptBind_ok] at h
      obtain ⟨ns, hns, h⟩ := h
      rw [exceptBind_ok] at h
      obtain ⟨⟨rows2, rest2⟩, hrows, h⟩ := h
      simp only [Except.ok.injEq, Prod.mk.injEq] at h
      obtain ⟨h1, h2⟩ := h
      subst h1
      obtain ⟨hlen, hall⟩ := ih hrows
      refine ⟨by simp [hlen], ?_⟩
      intro row hrow
      rcases List.mem_cons.mp hrow with hh | hh
      · subst hh; exact parseElemLine_ok hns
      · exact hall row hh

theorem parseEGroup_write {nN dim : Nat} (eg : xf_ElemGroup) (rest : GriFile)
    (hcat : catalogLookup dim eg.QBasis eg.QOrder = some eg.nNode)
    (hrows : eg.Node.length = eg.nElem)
    (hrow : ∀ row ∈ eg.Node, row.length = eg.nNode ∧ ∀ n ∈ row, n < nN) :
    parseEGroup nN dim (writeEGroup eg ++ rest) = .ok (eg, rest) := by
  unfold writeEGroup parseEGroup
  simp only [List.cons_append]
  rw [hcat]
  have hel : parseElemLines nN eg.nNode eg.nElem (eg.Node.map (List.map Tok.nat) ++ rest)
      = .ok (eg.Node, rest) := by
    rw [← hrows]
    exact parseElemLines_append eg.Node rest hrow
  simp [Bind.bind, Except.bind, hel]

theorem parseEGroup_ok {nN dim : Nat} {f : GriFile} {eg : xf_ElemGroup} {rest : GriFile}
    (h : parseEGroup nN dim f = .ok (eg, rest)) : ValidEG nN dim eg := by
  unfold parseEGroup at h
  split at h
  case h_2 => exact absurd h (by simp)
  case h_1 nE order basis r =>
    cases hcat : catalogLookup dim basis order with
    | none => rw [hcat] at h; exact absurd h (by simp)
    | some nPE =>
      rw [hcat] at h
      rw [exceptBind_ok] at h
      obtain ⟨⟨rows, rest2⟩, hrows, h⟩ := h
      simp only [Except.ok.injEq, Prod.mk.injEq] at h
      obtain ⟨h1, h2⟩ := h
      subst h1
      obtain ⟨hlen, hall⟩ := parseElemLines_ok hrows
      exact ⟨hcat, hlen, hall⟩

theorem parseEGroups_append {nN dim : Nat} (egs : List xf_ElemGroup) (rest : GriFile)
    (h : ∀ eg ∈ egs, ValidEG nN dim eg) :
    parseEGroups nN dim egs.length ((egs.map writeEGroup).flatten ++ rest)
      = .ok (egs, rest) := by
  induction egs with
  | nil => rfl
  | cons eg egs ih =>
    simp only [List.length_cons, List.map_cons, List.flatten_cons, List.append_assoc]
    unfold parseEGroups
    obtain ⟨hcat, hrows, hrow⟩ := h eg (by simp)
    rw [parseEGroup_write eg _ hcat hrows hrow]
    simp only [Bind.bind, Except.bind]
    rw [ih (fun x hx => h x (by simp [hx]))]

theorem parseEGroups_ok {nN dim : Nat} : ∀ {k : Nat} {f : GriFile} {egs : List xf_ElemGroup}
    {rest : GriFile}, parseEGroups nN dim k f = .ok (egs, rest) →
    ∀ eg ∈ egs, ValidEG nN dim eg := by
  intro k
  induction k with
  | zero =>
    intro f egs rest h
    unfold parseEGroups at h
    cases h
    simp
  | succ k ih =>
    intro f egs rest h
    unfold parseEGroups at h
    rw [exceptBind_ok] at h
    obtain ⟨⟨eg, r⟩, heg, h⟩ := h
    rw [exceptBind_ok] at h
    obtain ⟨⟨egs2, rest2⟩, hegs, h⟩ := h
    simp only [Except.ok.injEq, Prod.mk.injEq] at h
    obtain ⟨h1, h2⟩ := h
    subst h1
    intro x hx
    rcases List.mem_cons.mp hx with hh | hh
    · subst hh; exact parseEGroup_ok heg
    · exact ih hegs x hh

/-! ### Face-resolution lemmas -/

theorem catalogLookup_some {dim order k : Nat} {basis : String}
    (h : catalogLookup dim basis order = some k) : k = nodesPerElem dim order := by
  unfold catalogLookup at h
  by_cases hc : basis = "Lagrange" ∧ (dim = 2 ∨ dim = 3) ∧ 1 ≤ order
  · rw [if_pos hc] at h; cases h; rfl
  · rw [if_neg hc] at h; exact absurd h (by simp)

theorem localFaceNodes_lt {d p f j : Nat} (h : j ∈ localFaceNodes d p f) :
    j < nodesPerElem d p := by
  unfold localFaceNodes at h
  obtain ⟨x, hx, rfl⟩ := List.mem_map.mp h
  have hx2 := List.mem_filter.mp hx
  exact List.fst_lt_of_mem_enum hx2.1

theorem getD_mem_of_lt {α : Type} {l : List α} {i : Nat} (d : α) (h : i < l.length) :
    l.getD i d ∈ l := by
  rw [List.getD_eq_getElem l d h]
  exact List.getElem_mem h

/-- For a valid boundary face of a valid mesh, every node index on its
reconstructed face node list is in range. -/
theorem faceNodeList_lt {nN dim : Nat} {egs : List xf_ElemGroup} {b : xf_BFace}
    (hv : ∀ eg ∈ egs, ValidEG nN dim eg)
    (hb : b.egrp < egs.length ∧ b.elem < (egs.getD b.egrp emptyEG).nElem) :
    ∀ n ∈ faceNodeList dim egs b, n < nN := by
  intro n hn
  unfold faceNodeList at hn
  obtain ⟨j, hj, rfl⟩ := List.mem_map.mp hn
  set eg := egs.getD b.egrp emptyEG with heg
  have hegmem : eg ∈ egs := by
    rw [heg]
    exact getD_mem_of_lt emptyEG hb.1
  obtain ⟨hcat, hrows, hrow⟩ := hv eg hegmem
  have hjlt : j < nodesPerElem dim eg.QOrder := localFaceNodes_lt hj
  have hnn : eg.nNode = nodesPerElem dim eg.QOrder := catalogLookup_some hcat
  have helem : b.elem < eg.Node.length := by rw [hrows]; exact hb.2
  set row := eg.Node.getD b.elem [] with hrowdef
  have hrowmem : row ∈ eg.Node := by
    rw [hrowdef]
    exact getD_mem_of_lt [] helem
  obtain ⟨hrlen, hrbound⟩ := hrow row hrowmem
  have hjrow : j < row.length := by rw [hrlen, hnn]; exact hjlt
  exact hrbound _ (getD_mem_of_lt 0 hjrow)

/-- Membership in the reverse face lookup, characterized. -/
theorem mem_allFaces_iff {dim : Nat} {egs : List xf_ElemGroup} {p : xf_BFace × Finset Nat} :
    p ∈ allFaces dim egs ↔
      (p.1.egrp < egs.length ∧ p.1.elem < (egs.getD p.1.egrp emptyEG).nElem ∧
       p.1.face < dim + 1 ∧ p.2 = (faceNodeList dim egs p.1).toFinset) := by
  unfold allFaces
  simp only [List.mem_flatMap, List.mem_map, List.mem_range]
  constructor
  · rintro ⟨g, hg, e, he, f, hf, rfl⟩
    exact ⟨hg, he, hf, rfl⟩
  · rintro ⟨hg, he, hf, hs⟩
    refine ⟨p.1.egrp, hg, p.1.elem, he, p.1.face, hf, ?_⟩
    obtain ⟨pb, ps⟩ := p
    obtain ⟨g, e, f⟩ := pb
    simp only at hs ⊢
    rw [hs]

theorem resolveFace_ok_mem {dim : Nat} {egs : List xf_ElemGroup} {ns : List Nat}
    {b : xf_BFace} (h : resolveFace dim egs ns = .ok b) :
    b.egrp < egs.length ∧ b.elem < (egs.getD b.egrp emptyEG).nElem ∧ b.face < dim + 1 ∧
      (faceNodeList dim egs b).toFinset = ns.toFinset := by
  unfold resolveFace at h
  cases hf : (allFaces dim egs).find? (fun p => decide (p.2 = ns.toFinset)) with
  | none => rw [hf] at h; exact absurd h (by simp)
  | some p =>
    rw [hf] at h
    cases h
    have hmem := List.mem_of_find?_eq_some hf
    have hpred := List.find?_some hf
    rw [decide_eq_true_eq] at hpred
    obtain ⟨h1, h2, h3, h4⟩ := mem_allFaces_iff.mp hmem
    exact ⟨h1, h2, h3, by rw [← h4, hpred]⟩

/-- For a valid boundary face, resolving its reconstructed node list
succeeds and yields a face with the same identity set. -/
theorem resolveFace_write {dim : Nat} {egs : List xf_ElemGroup} {b : xf_BFace}
    (hb : b.egrp < egs.length ∧ b.elem < (egs.getD b.egrp emptyEG).nElem ∧ b.face < dim + 1) :
    ∃ b2, resolveFace dim egs (faceNodeList dim egs b) = .ok b2 ∧
      (faceNodeList dim egs b2).toFinset = (faceNodeList dim egs b).toFinset := by
  have hmem : (b, (faceNodeList dim egs b).toFinset) ∈ allFaces dim egs :=
    mem_allFaces_iff.mpr ⟨hb.1, hb.2.1, hb.2.2, rfl⟩
  have hsome : ((allFaces dim egs).find?
      (fun p => decide (p.2 = (faceNodeList dim egs b).toFinset))).isSome := by
    rw [List.find?_isSome]
    exact ⟨(b, (faceNodeList dim egs b).toFinset), hmem, by simp⟩
  cases hf : (allFaces dim egs).find?
      (fun p => decide (p.2 = (faceNodeList dim egs b).toFinset)) with
  | none => rw [hf] at hsome; exact absurd hsome (by simp)
  | some p =>
    refine ⟨p.1, ?_, ?_⟩
    · unfold resolveFace
      rw [hf]
    · have hpred := List.find?_some hf
      rw [decide_eq_true_eq] at hpred
      have hmem2 := List.mem_of_find?_eq_some hf
      obtain ⟨_, _, _, h4⟩ := mem_allFaces_iff.mp hmem2
      rw [← h4, hpred]

theorem resolveFace_error {dim : Nat} {egs : List xf_ElemGroup} {ns : List Nat} {e : MeshError}
    (h : resolveFace dim egs ns = .error e) : e = .UnresolvedBoundaryFace := by
  unfold resolveFace at h
  cases hf : (allFaces dim egs).find? (fun p => decide (p.2 = ns.toFinset)) with
  | none => rw [hf] at h; cases h; rfl
  | some p => rw [hf] at h; exact absurd h (by simp)

theorem resolveFace_error_iff {dim : Nat} {egs : List xf_ElemGroup} {ns : List Nat}
    {e : MeshError} : resolveFace dim egs ns = .error e ↔
      e = .UnresolvedBoundaryFace ∧ ∀ p ∈ allFaces dim egs, p.2 ≠ ns.toFinset := by
  constructor
  · intro h
    refine ⟨resolveFace_error h, ?_⟩
    unfold resolveFace at h
    cases hf : (allFaces dim egs).find? (fun p => decide (p.2 = ns.toFinset)) with
    | none =>
      intro p hp
      have := List.find?_eq_none.mp hf p hp
      simpa using this
    | some p => rw [hf] at h; exact absurd h (by simp)
  · rintro ⟨rfl, hall⟩
    unfold resolveFace
    have hnone : (allFaces dim egs).find? (fun p => decide (p.2 = ns.toFinset)) = none := by
      rw [List.find?_eq_none]
      intro p hp
      simpa using hall p hp
    rw [hnone]

theorem resolveFaces_ok {dim : Nat} {egs : List xf_ElemGroup} :
    ∀ {nss : List (List Nat)} {bs : List xf_BFace},
    resolveFaces dim egs nss = .ok bs → ∀ b ∈ bs, ValidBFace dim egs b := by
  intro nss
  induction nss with
  | nil =>
    intro bs h
    unfold resolveFaces at h
    cases h
    simp
  | cons ns nss ih =>
    intro bs h
    unfold resolveFaces at h
    rw [exceptBind_ok] at h
    obtain ⟨b, hb, h⟩ := h
    rw [exceptBind_ok] at h
    obtain ⟨bs2, hbs, h⟩ := h
    simp only [Except.ok.injEq] at h
    subst h
    intro x hx
    rcases List.mem_cons.mp hx with hh | hh
    · subst hh
      obtain ⟨h1, h2, h3, _⟩ := resolveFace_ok_mem hb
      exact ⟨h1, h2, h3⟩
    · exact ih hbs x hh

theorem resolveFaces_write {dim : Nat} {egs : List xf_ElemGroup} :
    ∀ (bs : List xf_BFace), (∀ b ∈ bs, ValidBFace dim egs b) →
    ∃ bs2, resolveFaces dim egs (bs.map (faceNodeList dim egs)) = .ok bs2 ∧
      bs2.map (fun b => (faceNodeList dim egs b).toFinset)
        = bs.map (fun b => (faceNodeList dim egs b).toFinset) := by
  intro bs
  induction bs with
  | nil => intro _; exact ⟨[], rfl, rfl⟩
  | cons b bs ih =>
    intro h
    obtain ⟨b2, hb2, hset⟩ := resolveFace_write (h b (by simp))
    obtain ⟨bs2, hbs2, hsets⟩ := ih (fun x hx => h x (by simp [hx]))
    refine ⟨b2 :: bs2, ?_, ?_⟩
    · simp only [List.map_cons]
      unfold resolveFaces
      rw [hb2]
      simp only [Bind.bind, Except.bind]
      rw [hbs2]
    · simp [hset, hsets]

theorem resolveBGroups_ok {dim : Nat} {egs : List xf_ElemGroup} :
    ∀ {raws : List RawBG} {bgs : List xf_BFaceGroup},
    resolveBGroups dim egs raws = .ok bgs →
    ∀ bg ∈ bgs, ∀ b ∈ bg.BFace, ValidBFace dim egs b := by
  intro raws
  induction raws with
  | nil =>
    intro bgs h
    unfold resolveBGroups at h
    cases h
    simp
  | cons raw raws ih =>
    intro bgs h
    unfold resolveBGroups at h
    rw [exceptBind_ok] at h
    obtain ⟨bs, hbs, h⟩ := h
    rw [exceptBind_ok] at h
    obtain ⟨bgs2, hbgs, h⟩ := h
    simp only [Except.ok.injEq] at h
    subst h
    intro bg hbg
    rcases List.mem_cons.mp hbg with hh | hh
    · subst hh
      exact resolveFaces_ok hbs
    · exact ih hbgs bg hh

theorem resolveBGroups_write {dim : Nat} {egs : List xf_ElemGroup} :
    ∀ (bgs : List xf_BFaceGroup), (∀ bg ∈ bgs, ∀ b ∈ bg.BFace, ValidBFace dim egs b) →
    ∃ bgs2, resolveBGroups dim egs
        (bgs.map (fun bg => (bg.Title, bg.BFace.map (faceNodeList dim egs)))) = .ok bgs2 ∧
      bgs2.map xf_BFaceGroup.Title = bgs.map xf_BFaceGroup.Title ∧
      bgs2.map (bfaceSets dim egs) = bgs.map (bfaceSets dim egs) := by
  intro bgs
  induction bgs with
  | nil => intro _; exact ⟨[], rfl, rfl, rfl⟩
  | cons bg bgs ih =>
    intro h
    obtain ⟨bs2, hbs2, hsets⟩ := resolveFaces_write bg.BFace (h bg (by simp))
    obtain ⟨bgs2, hbgs2, htitles, hallsets⟩ := ih (fun x hx => h x (by simp [hx]))
    refine ⟨⟨bg.Title, bs2⟩ :: bgs2, ?_, ?_, ?_⟩
    · simp only [List.map_cons]
      unfold resolveBGroups
      rw [hbs2]
      simp only [Bind.bind, Except.bind]
      rw [hbgs2]
    · simp [htitles]
    · simp only [List.map_cons, List.cons.injEq]
      exact ⟨by simp [bfaceSets, hsets], hallsets⟩

/-! ### Read-path assembly -/

theorem ok_bind {ε α β : Type} (a : α) (g : α → Except ε β) :
    (Except.ok a >>= g) = g a := rfl

theorem err_bind {ε α β : Type} (e : ε) (g : α → Except ε β) :
    ((Except.error e : Except ε α) >>= g) = Except.error e := rfl

theorem parseHeader_ok_dim {f : GriFile} {nN dim : Nat} {r : GriFile}
    (h : parseHeader f = .ok (nN, dim, r)) : dim = 2 ∨ dim = 3 := by
  unfold parseHeader at h
  split at h
  · split at h
    · rename_i hc
      simp only [Except.ok.injEq, Prod.mk.injEq] at h
      obtain ⟨-, h2, -⟩ := h
      subst h2
      exact hc
    · exact absurd h (by simp)
  · exact absurd h (by simp)

theorem parseHeader_write (nN dim : Nat) (r : GriFile) (h : dim = 2 ∨ dim = 3) :
    parseHeader ([Tok.nat nN, Tok.nat dim] :: r) = .ok (nN, dim, r) := by
  simp only [parseHeader]
  rw [if_pos h]

/-- Inversion of the read path: a successful read passes through every
stage in order and assembles the mesh from the stages' outputs. -/
theorem readGri_ok_inv {f : GriFile} {M : xf_Mesh} (h : px_ReadGriFile f = .ok M) :
    ∃ r1 r2 nBG r3 raws r4 nEG r5 r6,
      parseHeader f = .ok (M.nNode, M.Dim, r1) ∧
      parseCoords M.Dim M.nNode r1 = .ok (M.Coord, r2) ∧
      parseCount r2 = .ok (nBG, r3) ∧
      parseBGroups M.nNode nBG r3 = .ok (raws, r4) ∧
      parseCount r4 = .ok (nEG, r5) ∧
      parseEGroups M.nNode M.Dim nEG r5 = .ok (M.ElemGroup, r6) ∧
      resolveBGroups M.Dim M.ElemGroup raws = .ok M.BFaceGroup := by
  unfold px_ReadGriFile at h
  rw [exceptBind_ok] at h
  obtain ⟨⟨nN, dim, r1⟩, h1, h⟩ := h
  rw [exceptBind_ok] at h
  obtain ⟨⟨coords, r2⟩, h2, h⟩ := h
  rw [exceptBind_ok] at h
  obtain ⟨⟨nBG, r3⟩, h3, h⟩ := h
  rw [exceptBind_ok] at h
  obtain ⟨⟨raws, r4⟩, h4, h⟩ := h
  rw [exceptBind_ok] at h
  obtain ⟨⟨nEG, r5⟩, h5, h⟩ := h
  rw [exceptBind_ok] at h
  obtain ⟨⟨egs, r6⟩, h6, h⟩ := h
  rw [exceptBind_ok] at h
  obtain ⟨bgs, h7, h⟩ := h
  simp only [Except.ok.injEq] at h
  subst h
  exact ⟨r1, r2, nBG, r3, raws, r4, nEG, r5, r6, h1, h2, h3, h4, h5, h6, h7⟩

/-- Every mesh a successful read returns satisfies the full Mesh
Container invariants. -/
theorem readGri_valid {f : GriFile} {M : xf_Mesh} (h : px_ReadGriFile f = .ok M) :
    ValidMesh M := by
  obtain ⟨r1, r2, nBG, r3, raws, r4, nEG, r5, r6, h1, h2, h3, h4, h5, h6, h7⟩ :=
    readGri_ok_inv h
  obtain ⟨hclen, hcrow⟩ := parseCoords_ok h2
  exact ⟨parseHeader_ok_dim h1, hclen, hcrow, parseEGroups_ok h6, resolveBGroups_ok h7⟩

/-- Reading back a written valid mesh succeeds; node table and element
groups return verbatim, boundary groups return with the same titles
and the same face identity sets. -/
theorem readGri_write (M : xf_Mesh) (h : ValidMesh M) :
    ∃ bgs2, px_ReadGriFile (px_WriteGriFile M)
        = .ok ⟨M.Dim, M.nNode, M.Coord, M.ElemGroup, bgs2⟩ ∧
      bgs2.map xf_BFaceGroup.Title = M.BFaceGroup.map xf_BFaceGroup.Title ∧
      bgs2.map (bfaceSets M.Dim M.ElemGroup) = M.BFaceGroup.map (bfaceSets M.Dim M.ElemGroup) := by
  obtain ⟨hdim, hclen, hcrow, hegs, hbgs⟩ := h
  have hbnd : ∀ bg ∈ M.BFaceGroup, ∀ b ∈ bg.BFace,
      ∀ n ∈ faceNodeList M.Dim M.ElemGroup b, n < M.nNode := by
    intro bg hbg b hb
    exact faceNodeList_lt hegs ⟨(hbgs bg hbg b hb).1, (hbgs bg hbg b hb).2.1⟩
  obtain ⟨bgs2, hres, htitles, hsets⟩ := resolveBGroups_write M.BFaceGroup hbgs
  refine ⟨bgs2, ?_, htitles, hsets⟩
  have hW : px_WriteGriFile M = [Tok.nat M.nNode, Tok.nat M.Dim] ::
      (M.Coord.map (fun c => c.map Tok.real) ++
        ([Tok.nat M.BFaceGroup.length] ::
          ((M.BFaceGroup.map (writeBGroup M.Dim M.ElemGroup)).flatten ++
            ([Tok.nat M.ElemGroup.length] :: (M.ElemGroup.map writeEGroup).flatten)))) := by
    simp [px_WriteGriFile]
  have h2 : parseCoords M.Dim M.nNode
      (M.Coord.map (fun c => c.map Tok.real) ++
        ([Tok.nat M.BFaceGroup.length] ::
          ((M.BFaceGroup.map (writeBGroup M.Dim M.ElemGroup)).flatten ++
            ([Tok.nat M.ElemGroup.length] :: (M.ElemGroup.map writeEGroup).flatten))))
      = .ok (M.Coord,
          [Tok.nat M.BFaceGroup.length] ::
            ((M.BFaceGroup.map (writeBGroup M.Dim M.ElemGroup)).flatten ++
              ([Tok.nat M.ElemGroup.length] :: (M.ElemGroup.map writeEGroup).flatten))) := by
    rw [← hclen]
    exact parseCoords_append M.Coord _ hcrow
  have h4 : parseBGroups M.nNode M.BFaceGroup.length
      ((M.BFaceGroup.map (writeBGroup M.Dim M.ElemGroup)).flatten ++
        ([Tok.nat M.ElemGroup.length] :: (M.ElemGroup.map writeEGroup).flatten))
      = .ok (M.BFaceGroup.map
              (fun bg => (bg.Title, bg.BFace.map (faceNodeList M.Dim M.ElemGroup))),
             [Tok.nat M.ElemGroup.length] :: (M.ElemGroup.map writeEGroup).flatten) :=
    parseBGroups_append M.ElemGroup M.BFaceGroup _ hbnd
  have h6 : parseEGroups M.nNode M.Dim M.ElemGroup.length
      ((M.ElemGroup.map writeEGroup).flatten) = .ok (M.ElemGroup, []) := by
    have hh := parseEGroups_append M.ElemGroup [] hegs
    simpa using hh
  unfold px_ReadGriFile
  rw [hW, parseHeader_write _ _ _ hdim]
  simp only [ok_bind, h2, h4, h6, hres, parseCount]

/-! ### Error characterization of boundary resolution -/

theorem resolveFace_ok_exists {dim : Nat} {egs : List xf_ElemGroup} {ns : List Nat}
    {b : xf_BFace} (h : resolveFace dim egs ns = .ok b) :
    ∃ p ∈ allFaces dim egs, p.2 = ns.toFinset := by
  obtain ⟨h1, h2, h3, h4⟩ := resolveFace_ok_mem h
  exact ⟨(b, (faceNodeList dim egs b).toFinset),
    mem_allFaces_iff.mpr ⟨h1, h2, h3, rfl⟩, h4⟩

theorem resolveFaces_error_forward {dim : Nat} {egs : List xf_ElemGroup} :
    ∀ {nss : List (List Nat)} {e : MeshError}, resolveFaces dim egs nss = .error e →
    e = .UnresolvedBoundaryFace ∧ ∃ ns ∈ nss, ∀ p ∈ allFaces dim egs, p.2 ≠ ns.toFinset := by
  intro nss
  induction nss with
  | nil => intro e h; exact absurd h (by simp [resolveFaces])
  | cons ns nss ih =>
    intro e h
    unfold resolveFaces at h
    rw [exceptBind_error] at h
    rcases h with h | ⟨b, hb, h⟩
    · obtain ⟨he, hall⟩ := resolveFace_error_iff.mp h
      exact ⟨he, ns, by simp, hall⟩
    · rw [exceptBind_error] at h
      rcases h with h | ⟨bs, hbs, h⟩
      · obtain ⟨he, ks, hks, hall⟩ := ih h
        exact ⟨he, ks, by simp [hks], hall⟩
      · exact absurd h (by simp)

theorem resolveFaces_error_backward {dim : Nat} {egs : List xf_ElemGroup} :
    ∀ {nss : List (List Nat)} {ns : List Nat}, ns ∈ nss →
    (∀ p ∈ allFaces dim egs, p.2 ≠ ns.toFinset) →
    resolveFaces dim egs nss = .error .UnresolvedBoundaryFace := by
  intro nss
  induction nss with
  | nil => intro ns h; exact absurd h (by simp)
  | cons ks nss ih =>
    intro ns hmem hall
    cases hf : resolveFace dim egs ks with
    | error e =>
      have he := resolveFace_error hf
      subst he
      unfold resolveFaces
      rw [hf, err_bind]
    | ok b =>
      rcases List.mem_cons.mp hmem with hh | hh
      · subst hh
        obtain ⟨p, hp, hps⟩ := resolveFace_ok_exists hf
        exact absurd hps (hall p hp)
      · unfold resolveFaces
        rw [hf, ok_bind, ih hh hall, err_bind]

theorem resolveBGroups_error_forward {dim : Nat} {egs : List xf_ElemGroup} :
    ∀ {raws : List RawBG} {e : MeshError}, resolveBGroups dim egs raws = .error e →
    e = .UnresolvedBoundaryFace ∧
      ∃ bg ∈ raws, ∃ ns ∈ bg.2, ∀ p ∈ allFaces dim egs, p.2 ≠ ns.toFinset := by
  intro raws
  induction raws with
  | nil => intro e h; exact absurd h (by simp [resolveBGroups])
  | cons raw raws ih =>
    intro e h
    unfold resolveBGroups at h
    rw [exceptBind_error] at h
    rcases h with h | ⟨bs, hbs, h⟩
    · obtain ⟨he, ns, hns, hall⟩ := resolveFaces_error_forward h
      exact ⟨he, raw, by simp, ns, hns, hall⟩
    · rw [exceptBind_error] at h
      rcases h with h | ⟨bgs, hbgs, h⟩
      · obtain ⟨he, bg, hbg, ns, hns, hall⟩ := ih h
        exact ⟨he, bg, by simp [hbg], ns, hns, hall⟩
      · exact absurd h (by simp)

theorem resolveBGroups_error_backward {dim : Nat} {egs : List xf_ElemGroup} :
    ∀ {raws : List RawBG} {bg : RawBG} {ns : List Nat}, bg ∈ raws → ns ∈ bg.2 →
    (∀ p ∈ allFaces dim egs, p.2 ≠ ns.toFinset) →
    resolveBGroups dim egs raws = .error .UnresolvedBoundaryFace := by
  intro raws
  induction raws with
  | nil => intro bg ns h; exact absurd h (by simp)
  | cons raw raws ih =>
    intro bg ns hbg hns hall
    rcases List.mem_cons.mp hbg with hh | hh
    · subst hh
      unfold resolveBGroups
      rw [resolveFaces_error_backward hns hall, err_bind]
    · cases hf : resolveFaces dim egs raw.2 with
      | error e =>
        have he := (resolveFaces_error_forward hf).1
        subst he
        unfold resolveBGroups
        rw [hf, err_bind]
      | ok bs =>
        unfold resolveBGroups
        rw [hf, ok_bind, ih hh hns hall, err_bind]

/-! ### Concrete example data (spec section 8 scenario) -/

/-- The spec's example scenario mesh: 2D, 3 nodes, one order-1
triangle on nodes (0,1,2), one boundary group "wall" with the face on
nodes (0,1). -/
def exampleMesh : xf_Mesh :=
  ⟨2, 3, [[0, 0], [1, 0], [0, 1]],
   [⟨1, 3, 1, "Lagrange", [[0, 1, 2]]⟩],
   [⟨"wall", [⟨0, 0, 0⟩]⟩]⟩

/-- The GRI file of the spec's example scenario. -/
def exFile : GriFile :=
  [[Tok.nat 3, Tok.nat 2],
   [Tok.real 0, Tok.real 0], [Tok.real 1, Tok.real 0], [Tok.real 0, Tok.real 1],
   [Tok.nat 1],
   [Tok.nat 1, Tok.nat 2, Tok.str "wall"],
   [Tok.nat 0, Tok.nat 1],
   [Tok.nat 1],
   [Tok.nat 1, Tok.nat 1, Tok.str "Lagrange"],
   [Tok.nat 0, Tok.nat 1, Tok.nat 2]]

/-! ### Claim theorems -/

/-- C1: For every valid in-memory mesh M, writing M to a GRI file and
reading that file back yields a mesh equivalent to M: same dimension,
same node count, equal coordinates (exact, as reals are modelled by
rationals), same element connectivity, and the same boundary face
identity sets. -/
theorem gri_roundTrip (M : xf_Mesh) (h : ValidMesh M) :
    ∃ M2, px_ReadGriFile (px_WriteGriFile M) = .ok M2 ∧ MeshEquiv M M2 := by
  obtain ⟨bgs2, hread, htitles, hsets⟩ := readGri_write M h
  exact ⟨⟨M.Dim, M.nNode, M.Coord, M.ElemGroup, bgs2⟩, hread,
    rfl, rfl, rfl, rfl, htitles.symm, hsets.symm⟩

/-- Witness for C1 at the spec's example mesh. -/
theorem gri_roundTrip_witness :
    ValidMesh exampleMesh ∧
    ∃ M2, px_ReadGriFile (px_WriteGriFile exampleMesh) = .ok M2 ∧ MeshEquiv exampleMesh M2 :=
  ⟨by decide, gri_roundTrip exampleMesh (by decide)⟩

/-- C2: For every mesh successfully produced by the read path, every
element node index is strictly below the node count, and every
boundary face's element-group, local-element and local-face indices
are within the bounds of the referenced sibling structures. -/
theorem readGri_bounds {f : GriFile} {M : xf_Mesh} (h : px_ReadGriFile f = .ok M) :
    (∀ eg ∈ M.ElemGroup, ∀ row ∈ eg.Node, ∀ n ∈ row, n < M.nNode) ∧
    (∀ bg ∈ M.BFaceGroup, ∀ b ∈ bg.BFace,
      b.egrp < M.ElemGroup.length ∧
      b.elem < (M.ElemGroup.getD b.egrp emptyEG).nElem ∧
      b.face < M.Dim + 1) := by
  obtain ⟨-, -, -, hegs, hbgs⟩ := readGri_valid h
  exact ⟨fun eg heg row hrow n hn => ((hegs eg heg).2.2 row hrow).2 n hn, hbgs⟩

/-- Witness for C2 at the spec's example file. -/
theorem readGri_bounds_witness :
    px_ReadGriFile exFile = .ok exampleMesh ∧
    ((∀ eg ∈ exampleMesh.ElemGroup, ∀ row ∈ eg.Node, ∀ n ∈ row, n < exampleMesh.nNode) ∧
     (∀ bg ∈ exampleMesh.BFaceGroup, ∀ b ∈ bg.BFace,
       b.egrp < exampleMesh.ElemGroup.length ∧
       b.elem < (exampleMesh.ElemGroup.getD b.egrp emptyEG).nElem ∧
       b.face < exampleMesh.Dim + 1)) :=
  ⟨rfl, readGri_bounds (show px_ReadGriFile exFile = .ok exampleMesh from rfl)⟩

/-- C3: The read path either returns a fully constructed mesh — one
satisfying all Mesh Container invariants — or fails with an error
value; no partially constructed mesh is ever reachable by the
caller. -/
theorem readGri_atomic (f : GriFile) :
    (∃ M, px_ReadGriFile f = .ok M ∧ ValidMesh M) ∨
    (∃ e, px_ReadGriFile f = .error e) := by
  cases hr : px_ReadGriFile f with
  | ok M => exact Or.inl ⟨M, rfl, readGri_valid hr⟩
  | error e => exact Or.inr ⟨e, rfl⟩

/-- C8: A freshly created mesh reports dimension 0 (unset), zero
nodes, an empty coordinate array, and zero element and boundary
groups. -/
theorem createMesh_empty :
    px_GetNodes px_CreateMesh = (0, 0, []) ∧
    px_nElemGroup px_CreateMesh = 0 ∧
    px_nBFaceGroup px_CreateMesh = 0 :=
  ⟨rfl, rfl, rfl⟩

/-- C10 counterexample: on a freshly created mesh, `GetNodes` returns
dimension 0, which is neither 2 nor 3 — the header's `[ 2 | 3 ]`
annotation does not hold for the unset dimension. -/
theorem getNodes_dim_unset_cex :
    (px_GetNodes px_CreateMesh).1 = 0 ∧
    ¬((px_GetNodes px_CreateMesh).1 = 2 ∨ (px_GetNodes px_CreateMesh).1 = 3) := by
  decide

/-- C10 amended: for every mesh produced by a successful read, the
dimension `GetNodes` returns is 2 or 3; a freshly created mesh instead
returns the unset value 0. -/
theorem getNodes_dim_of_read {f : GriFile} {M : xf_Mesh} (h : px_ReadGriFile f = .ok M) :
    (px_GetNodes M).1 = 2 ∨ (px_GetNodes M).1 = 3 :=
  (readGri_valid h).1

/-- Witness for the amended C10 at the spec's example file. -/
theorem getNodes_dim_of_read_witness :
    px_ReadGriFile exFile = .ok exampleMesh ∧
    ((px_GetNodes exampleMesh).1 = 2 ∨ (px_GetNodes exampleMesh).1 = 3) :=
  ⟨rfl, getNodes_dim_of_read (show px_ReadGriFile exFile = .ok exampleMesh from rfl)⟩

/-- C4: Boundary faces are matched to element faces by unordered
node-index-set equality, and resolution fails with
`UnresolvedBoundaryFace` exactly when some boundary face's node set
matches no face of any parsed element. -/
theorem boundaryFace_set_matching (dim : Nat) (egs : List xf_ElemGroup) (ns ms : List Nat)
    (raws : List RawBG) :
    (ns.toFinset = ms.toFinset → resolveFace dim egs ns = resolveFace dim egs ms) ∧
    (resolveFace dim egs ns = .error .UnresolvedBoundaryFace ↔
      ∀ p ∈ allFaces dim egs, p.2 ≠ ns.toFinset) ∧
    (resolveBGroups dim egs raws = .error .UnresolvedBoundaryFace ↔
      ∃ bg ∈ raws, ∃ ks ∈ bg.2, ∀ p ∈ allFaces dim egs, p.2 ≠ ks.toFinset) := by
  refine ⟨?_, ?_, ?_⟩
  · intro h
    unfold resolveFace
    rw [h]
  · constructor
    · intro h; exact (resolveFace_error_iff.mp h).2
    · intro h; exact resolveFace_error_iff.mpr ⟨rfl, h⟩
  · constructor
    · intro h; exact (resolveBGroups_error_forward h).2
    · rintro ⟨bg, hbg, ks, hks, hall⟩
      exact resolveBGroups_error_backward hbg hks hall

/-- Witness for C4: node order does not matter on the example mesh,
and the node set {0,3} matches no element face. -/
theorem boundaryFace_set_matching_witness :
    resolveFace 2 exampleMesh.ElemGroup [0, 1] = resolveFace 2 exampleMesh.ElemGroup [1, 0] ∧
    resolveFace 2 exampleMesh.ElemGroup [0, 3] = .error .UnresolvedBoundaryFace :=
  ⟨(boundaryFace_set_matching 2 exampleMesh.ElemGroup [0, 1] [1, 0] []).1 (by decide),
   (boundaryFace_set_matching 2 exampleMesh.ElemGroup [0, 3] [] []).2.1.mpr (by decide)⟩

/-- C5: fewer data lines than the declared node count fail the read
with `MalformedFile`; a coordinate line with fewer than `dimension`
numeric tokens fails with `MalformedFile`; and a successful read never
truncates or pads — the mesh holds exactly `nodeCount` rows of exactly
`dimension` entries. -/
theorem readGri_header_mismatch (nN dim : Nat) (lines : GriFile) (l : GriLine) :
    (lines.length < nN →
      px_ReadGriFile ([Tok.nat nN, Tok.nat dim] :: lines) = .error .MalformedFile) ∧
    (l.length < dim → parseCoordLine dim l = .error .MalformedFile) ∧
    (∀ (f : GriFile) (M : xf_Mesh), px_ReadGriFile f = .ok M →
      M.Coord.length = M.nNode ∧ ∀ c ∈ M.Coord, c.length = M.Dim) := by
  refine ⟨?_, parseCoordLine_short l, ?_⟩
  · intro hlt
    by_cases hd : dim = 2 ∨ dim = 3
    · unfold px_ReadGriFile
      rw [parseHeader_write _ _ _ hd]
      simp only [ok_bind]
      rw [parseCoords_short nN lines hlt]
      rfl
    · unfold px_ReadGriFile
      have hh : parseHeader ([Tok.nat nN, Tok.nat dim] :: lines) = .error .MalformedFile := by
        simp only [parseHeader]
        rw [if_neg hd]
      rw [hh]
      rfl
  · intro f M h
    obtain ⟨-, h2, h3, -, -⟩ := readGri_valid h
    exact ⟨h2, h3⟩

/-- Witness for C5: a header declaring 5 nodes over 4 coordinate
lines, and a 1-token coordinate line in 2D. -/
theorem readGri_header_mismatch_witness :
    px_ReadGriFile [[Tok.nat 5, Tok.nat 2],
      [Tok.real 0, Tok.real 0], [Tok.real 1, Tok.real 0],
      [Tok.real 0, Tok.real 1], [Tok.real 1, Tok.real 1]] = .error .MalformedFile ∧
    parseCoordLine 2 [Tok.real 0] = .error .MalformedFile ∧
    (exampleMesh.Coord.length = exampleMesh.nNode ∧
     ∀ c ∈ exampleMesh.Coord, c.length = exampleMesh.Dim) := by
  have t := readGri_header_mismatch 5 2
      [[Tok.real 0, Tok.real 0], [Tok.real 1, Tok.real 0],
       [Tok.real 0, Tok.real 1], [Tok.real 1, Tok.real 1]]
      [Tok.real 0]
  exact ⟨t.1 (by decide), t.2.1 (by decide), t.2.2 exFile exampleMesh rfl⟩

/-- C6: the element-group and boundary-group accessors fail with
`IndexOutOfRange` exactly when the index reaches the group count, and
otherwise return the indexed group's data. -/
theorem group_accessor_range (M : xf_Mesh) (i : Nat) :
    ((px_nElemGroup M ≤ i → px_ElemGroup M i = .error .IndexOutOfRange) ∧
     ∀ hlt : i < px_nElemGroup M, px_ElemGroup M i =
       .ok ((M.ElemGroup.get ⟨i, hlt⟩).nElem, (M.ElemGroup.get ⟨i, hlt⟩).nNode,
            (M.ElemGroup.get ⟨i, hlt⟩).QOrder, (M.ElemGroup.get ⟨i, hlt⟩).QBasis,
            (M.ElemGroup.get ⟨i, hlt⟩).Node.flatten)) ∧
    ((px_nBFaceGroup M ≤ i → px_BFaceGroup M i = .error .IndexOutOfRange) ∧
     ∀ hlt : i < px_nBFaceGroup M, px_BFaceGroup M i =
       .ok ((M.BFaceGroup.get ⟨i, hlt⟩).Title, (M.BFaceGroup.get ⟨i, hlt⟩).BFace.length,
            ((M.BFaceGroup.get ⟨i, hlt⟩).BFace.map bfaceTriple).flatten)) := by
  refine ⟨⟨?_, ?_⟩, ?_, ?_⟩
  · intro hle
    unfold px_ElemGroup
    rw [List.getElem?_eq_none hle]
  · intro hlt
    unfold px_ElemGroup
    rw [List.getElem?_eq_getElem hlt]
    simp [List.get_eq_getElem]
  · intro hle
    unfold px_BFaceGroup
    rw [List.getElem?_eq_none hle]
  · intro hlt
    unfold px_BFaceGroup
    rw [List.getElem?_eq_getElem hlt]
    simp [List.get_eq_getElem]

/-- Witness for C6 on the example mesh: index 0 is in range for both
accessors, index 1 is out of range for both. -/
theorem group_accessor_range_witness :
    px_ElemGroup exampleMesh 1 = .error .IndexOutOfRange ∧
    px_ElemGroup exampleMesh 0 = .ok (1, 3, 1, "Lagrange", [0, 1, 2]) ∧
    px_BFaceGroup exampleMesh 1 = .error .IndexOutOfRange ∧
    px_BFaceGroup exampleMesh 0 = .ok ("wall", 1, [0, 0, 0]) :=
  ⟨(group_accessor_range exampleMesh 1).1.1 (by decide),
   ((group_accessor_range exampleMesh 0).1.2 (by decide)).trans rfl,
   (group_accessor_range exampleMesh 1).2.1 (by decide),
   ((group_accessor_range exampleMesh 0).2.2 (by decide)).trans rfl⟩

/-- C7: an element group whose basis/order combination the catalog
does not recognize fails with `UnknownBasis` — at the single-group
parser, at the element-section parser, and through the whole read
path. -/
theorem unknown_basis_fails (nN dim nE order k : Nat) (basis : String)
    (rest : GriFile) (cs : List (List Rat))
    (h : catalogLookup dim basis order = none) :
    (parseEGroup nN dim ([Tok.nat nE, Tok.nat order, Tok.str basis] :: rest)
      = .error .UnknownBasis) ∧
    (parseEGroups nN dim (k+1) ([Tok.nat nE, Tok.nat order, Tok.str basis] :: rest)
      = .error .UnknownBasis) ∧
    ((dim = 2 ∨ dim = 3) → cs.length = nN → (∀ c ∈ cs, c.length = dim) →
      px_ReadGriFile ([Tok.nat nN, Tok.nat dim] ::
        (cs.map (fun c => c.map Tok.real) ++
          ([Tok.nat 0] :: ([Tok.nat (k+1)] ::
            ([Tok.nat nE, Tok.nat order, Tok.str basis] :: rest)))))
        = .error .UnknownBasis) := by
  have h1 : parseEGroup nN dim ([Tok.nat nE, Tok.nat order, Tok.str basis] :: rest)
      = .error .UnknownBasis := by
    simp only [parseEGroup]
    rw [h]
  have h2 : parseEGroups nN dim (k+1) ([Tok.nat nE, Tok.nat order, Tok.str basis] :: rest)
      = .error .UnknownBasis := by
    unfold parseEGroups
    rw [h1]
    rfl
  refine ⟨h1, h2, ?_⟩
  intro hd hlen hrow
  unfold px_ReadGriFile
  rw [parseHeader_write _ _ _ hd]
  simp only [ok_bind]
  have hc : parseCoords dim nN (cs.map (fun c => c.map Tok.real) ++
      ([Tok.nat 0] :: ([Tok.nat (k+1)] ::
        ([Tok.nat nE, Tok.nat order, Tok.str basis] :: rest))))
      = .ok (cs, [Tok.nat 0] :: ([Tok.nat (k+1)] ::
          ([Tok.nat nE, Tok.nat order, Tok.str basis] :: rest))) := by
    rw [← hlen]
    exact parseCoords_append cs _ hrow
  rw [hc]
  simp only [ok_bind, parseCount, parseBGroups]
  rw [h2]
  rfl

/-- Witness for C7: the unrecognized basis label "Fourier" in 2D. -/
theorem unknown_basis_fails_witness :
    parseEGroup 3 2 [[Tok.nat 1, Tok.nat 1, Tok.str "Fourier"], [Tok.nat 0, Tok.nat 1, Tok.nat 2]]
      = .error .UnknownBasis ∧
    parseEGroups 3 2 1 [[Tok.nat 1, Tok.nat 1, Tok.str "Fourier"], [Tok.nat 0, Tok.nat 1, Tok.nat 2]]
      = .error .UnknownBasis ∧
    px_ReadGriFile ([Tok.nat 3, Tok.nat 2] ::
      (([[(0 : Rat), 0], [1, 0], [0, 1]].map (fun c => c.map Tok.real) ++
        ([Tok.nat 0] :: ([Tok.nat 1] ::
          ([Tok.nat 1, Tok.nat 1, Tok.str "Fourier"] ::
            [[Tok.nat 0, Tok.nat 1, Tok.nat 2]]))))))
      = .error .UnknownBasis := by
  have t := unknown_basis_fails 3 2 1 1 0 "Fourier"
      [[Tok.nat 0, Tok.nat 1, Tok.nat 2]] [[(0 : Rat), 0], [1, 0], [0, 1]] (by decide)
  exact ⟨t.1, t.2.1, t.2.2 (by decide) (by decide) (by decide)⟩

/-- The flattened triple array of a boundary group has three entries
per face. -/
theorem triples_flatten_length : ∀ (bs : List xf_BFace),
    ((bs.map bfaceTriple).flatten).length = bs.length * 3 := by
  intro bs
  induction bs with
  | nil => rfl
  | cons b bs ih =>
    simp only [List.map_cons, List.flatten_cons, List.length_append, List.length_cons, ih,
      bfaceTriple]
    simp
    omega

/-- C9: for an in-range index, `px_BFaceGroup` returns the group's
title, face count, and the faces' `(egrp, elem, face)` triples as a
flat array of `faceCount * 3` integers. -/
theorem bfaceGroup_flat_triples (M : xf_Mesh) (i : Nat) (g : xf_BFaceGroup)
    (h : M.BFaceGroup[i]? = some g) :
    px_BFaceGroup M i = .ok (g.Title, g.BFace.length, (g.BFace.map bfaceTriple).flatten) ∧
    ((g.BFace.map bfaceTriple).flatten).length = g.BFace.length * 3 := by
  refine ⟨?_, triples_flatten_length g.BFace⟩
  unfold px_BFaceGroup
  rw [h]

/-- Witness for C9 at the example mesh's only boundary group. -/
theorem bfaceGroup_flat_triples_witness :
    exampleMesh.BFaceGroup[0]? = some ⟨"wall", [⟨0, 0, 0⟩]⟩ ∧
    px_BFaceGroup exampleMesh 0 = .ok ("wall", 1, [0, 0, 0]) ∧
    ([0, 0, 0] : List Nat).length = 1 * 3 := by
  have t := bfaceGroup_flat_triples exampleMesh 0 ⟨"wall", [⟨0, 0, 0⟩]⟩ rfl
  exact ⟨rfl, t.1.trans rfl, by decide⟩
